import Mathlib

/-!
Shallow embedding of `src/src/js/ComplexProperties/ComplexPropertyCollection.ts`
(the change-tracking collection `ComplexPropertyCollection<TComplexProperty>`).

Modelling conventions:
* Elements are JavaScript object references; reference identity is modelled by `Nat` ids.
* The mutable collection fields (`items`, `addedItems`, `modifiedItems`, `removedItems`,
  line 25-28 of the source), every element's `OnChange` handler array, and every
  element's own loaded content are gathered in one record `St`; methods become
  functions `St → St` (with a `Bool` or error component where the source returns one
  or throws).
* `Changed()` (inherited from `ComplexProperty`, a collaborator outside the file)
  notifies the collection's own listeners; it is abstracted as a counter
  `changedCount` of emissions of the "changed" signal.
* Thrown exceptions are modelled by an `Err` component next to the post-state, so a
  call that mutates before throwing keeps its partial mutation, exactly as a
  JavaScript exception would leave the object.
-/

/-- Handler values that can appear in an element's `OnChange` array.  `InternalAdd`
(source line 223) pushes `this.ItemChanged.bind(this)`: JavaScript
`Function.prototype.bind` returns a fresh function object, distinct by reference from
the method `this.ItemChanged` itself, which is the value `InternalRemove` (source line
251) later passes to `ArrayHelper.RemoveEntry`.  The two constructors keep those two
kinds of function reference apart; all bound copies behave alike for this collection,
so they share one constructor. -/
inductive HandlerRef where
  | boundItemChanged : HandlerRef
  | itemChangedMethod : HandlerRef
deriving DecidableEq, Repr

/-- An already-parsed wire payload for one element: an optional embedded type hint
(`TypeSystem.GetJsObjectTypeName`; `none` models a missing or empty hint, which is
falsy in the source's `if` at lines 158 and 379) and the remaining element content,
abstracted as a `Nat`. -/
structure Payload where
  typeName : Option String := none
  value : Nat := 0
deriving DecidableEq, Repr

/-- Exceptions thrown by the source: `ArgumentOutOfRangeException` (line 71 and the
bounds assertion of `InternalRemoveAt`), `ServiceLocalException` with
`Strings.PropertyCollectionSizeMismatch` (line 369), `ServiceLocalException` with
`Strings.PropertyTypeIncompatibleWhenUpdatingCollection` (line 389), and the bare
`ServiceLocalException` for a null update entry (line 394). -/
inductive Err where
  | indexOutOfRange : Err
  | sizeMismatch : Err
  | typeIncompatible : Err
  | nullEntryInUpdate : Err
deriving DecidableEq, Repr

/-- The only XML namespace this file writes with (`XmlNamespace.Types`, line 441). -/
inductive XmlNs where
  | types : XmlNs
deriving DecidableEq, Repr

/-- Events emitted on the XML writer by `WriteSetUpdateToXml`: a namespaced start
element, the property definition writing its own schema identity
(`propertyDefinition.WriteToXml(writer)`, line 442), and an end element. -/
inductive XmlOut where
  | start (ns : XmlNs) (name : String) : XmlOut
  | propertyDef (pd : String) : XmlOut
  | endElem : XmlOut
deriving DecidableEq, Repr

/-- Modelled from the spec: `ArrayHelper.RemoveEntry` (from `ExtensionMethods`, a
collaborator outside the file; the source annotates each call with its C# meaning,
e.g. `this.items.Remove(complexProperty)` at line 249).  It removes the first
occurrence of the entry, compared by identity, and reports whether an entry was
removed. -/
def removeEntry {α : Type} [DecidableEq α] : List α → α → List α × Bool
  | [], _ => ([], false)
  | x :: xs, a =>
    if x = a then (xs, true)
    else
      let r := removeEntry xs a
      (x :: r.1, r.2)

theorem removeEntry_snd_iff {α : Type} [DecidableEq α] (l : List α) (a : α) :
    (removeEntry l a).2 = true ↔ a ∈ l := by
  induction l with
  | nil => simp [removeEntry]
  | cons x xs ih =>
    by_cases h : x = a
    · subst h; simp [removeEntry]
    · simp [removeEntry, h, ih, Ne.symm h]

theorem removeEntry_snd_of_not_mem {α : Type} [DecidableEq α] {l : List α} {a : α}
    (h : a ∉ l) : (removeEntry l a).2 = false := by
  cases hb : (removeEntry l a).2 with
  | false => rfl
  | true => exact absurd ((removeEntry_snd_iff l a).mp hb) h

theorem removeEntry_fst_eq_erase (l : List Nat) (a : Nat) :
    (removeEntry l a).1 = l.erase a := by
  induction l with
  | nil => rfl
  | cons x xs ih =>
    by_cases h : x = a
    · subst h; simp [removeEntry, List.erase_cons]
    · simp [removeEntry, h, ih, List.erase_cons, beq_iff_eq]

theorem removeEntry_cons_self {α : Type} [DecidableEq α] (a : α) (l : List α) :
    removeEntry (a :: l) a = (l, true) := by
  simp [removeEntry]

/-- Association-list read with a default, used to model per-element storage (each
element object owns its `OnChange` array and its own loaded content). -/
def getAssocD {α : Type} : List (Nat × α) → Nat → α → α
  | [], _, d => d
  | (k, v) :: rest, x, d => if k = x then v else getAssocD rest x d

/-- Association-list write, used to model per-element storage updates. -/
def setAssoc {α : Type} : List (Nat × α) → Nat → α → List (Nat × α)
  | [], x, v => [(x, v)]
  | (k, w) :: rest, x, v =>
    if k = x then (x, v) :: rest else (k, w) :: setAssoc rest x v

/-- The combined mutable state: the collection's four arrays (source lines 25-28), the
`OnChange` handler array of each element, each element's loaded content (written by its
`LoadFromXmlJsObject`), and the count of "changed" signals the collection has emitted
via `Changed()`. -/
structure St where
  items : List Nat := []
  addedItems : List Nat := []
  modifiedItems : List Nat := []
  removedItems : List Nat := []
  onChange : List (Nat × List HandlerRef) := []
  elemState : List (Nat × Payload) := []
  changedCount : Nat := 0
deriving DecidableEq, Repr

/-- The `OnChange` array of element `x` (empty for an element never subscribed to). -/
def onChangeOf (s : St) (x : Nat) : List HandlerRef :=
  getAssocD s.onChange x []

/-- `complexProperty.OnChange.push(...)` (source line 223). -/
def pushOnChange (x : Nat) (h : HandlerRef) (s : St) : St :=
  { s with onChange := setAssoc s.onChange x (onChangeOf s x ++ [h]) }

/-- `ArrayHelper.RemoveEntry(complexProperty.OnChange, target)` (source line 251). -/
def removeOnChange (x : Nat) (target : HandlerRef) (s : St) : St :=
  { s with onChange := setAssoc s.onChange x (removeEntry (onChangeOf s x) target).1 }

/-- `InternalAdd(complexProperty, loading)` (source lines 211-226): skip everything if
the element is already a member (`indexOf >= 0`); otherwise push onto `items`; unless
loading, purge from `removedItems` and push onto `addedItems`; push the bound
`ItemChanged` handler onto the element's `OnChange`; emit `Changed()`. -/
def InternalAdd (x : Nat) (loading : Bool) (s : St) : St :=
  if x ∈ s.items then s
  else
    let s1 := { s with items := s.items ++ [x] }
    let s2 :=
      if loading then s1
      else
        { s1 with
          removedItems := (removeEntry s1.removedItems x).1,
          addedItems := s1.addedItems ++ [x] }
    let s3 := pushOnChange x HandlerRef.boundItemChanged s2
    { s3 with changedCount := s3.changedCount + 1 }

/-- `InternalRemove(complexProperty)` (source lines 243-266): if `RemoveEntry` finds
the element in `items`, then attempt to remove the handler from the element's
`OnChange` — the source passes the raw method `this.ItemChanged` (line 251) while the
array holds the distinct bound copy pushed at line 223, so this lookup finds nothing —
then either purge from `addedItems` (if present there) or push onto `removedItems`,
purge from `modifiedItems`, emit `Changed()`, and return true; otherwise return false
having changed nothing. -/
def InternalRemove (x : Nat) (s : St) : St × Bool :=
  let r := removeEntry s.items x
  if r.2 then
    let s1 := { s with items := r.1 }
    let s2 := removeOnChange x HandlerRef.itemChangedMethod s1
    let s3 :=
      if x ∈ s2.addedItems then
        { s2 with addedItems := (removeEntry s2.addedItems x).1 }
      else
        { s2 with removedItems := s2.removedItems ++ [x] }
    let s4 := { s3 with modifiedItems := (removeEntry s3.modifiedItems x).1 }
    ({ s4 with changedCount := s4.changedCount + 1 }, true)
  else
    (s, false)

/-- `ItemChanged(complexProperty)` (source lines 287-301): if the element is not in
`addedItems` and not yet in `modifiedItems`, push it onto `modifiedItems` and emit
`Changed()`. -/
def ItemChanged (x : Nat) (s : St) : St :=
  if x ∈ s.addedItems then s
  else if x ∈ s.modifiedItems then s
  else
    { s with
      modifiedItems := s.modifiedItems ++ [x],
      changedCount := s.changedCount + 1 }

/-- Modelled from the spec: an element "must emit a change notification the collection
can subscribe to" (spec section 6); `ComplexProperty.Changed` itself is a collaborator
outside the file.  Firing the notification invokes, in order, the handlers currently
registered in the element's `OnChange` array.  Only the bound copies of `ItemChanged`
pushed by `InternalAdd` act on this collection; the raw method constructor is never
pushed into any `OnChange` array, so its branch is never taken. -/
def elementChanged (x : Nat) (s : St) : St :=
  (onChangeOf s x).foldl
    (fun acc h =>
      match h with
      | HandlerRef.boundItemChanged => ItemChanged x acc
      | HandlerRef.itemChangedMethod => acc) s

/-- `ClearChangeLog()` (source lines 87-91): `splice(0)` empties each of the three
change-set arrays, touching nothing else. -/
def ClearChangeLog (s : St) : St :=
  { s with removedItems := [], addedItems := [], modifiedItems := [] }

/-- `RemoveFromChangeLog(complexProperty)` (source lines 319-323): purge the element
from `removedItems`, `modifiedItems` and `addedItems`, touching nothing else. -/
def RemoveFromChangeLog (x : Nat) (s : St) : St :=
  let s1 := { s with removedItems := (removeEntry s.removedItems x).1 }
  let s2 := { s1 with modifiedItems := (removeEntry s1.modifiedItems x).1 }
  { s2 with addedItems := (removeEntry s2.addedItems x).1 }

/-- `ShouldWriteToRequest()` (source lines 330-333): true iff the collection has at
least one element. -/
def ShouldWriteToRequest (s : St) : Bool :=
  0 < s.items.length

/-- `WriteSetUpdateToXml(writer, ewsObject, propertyDefinition)` (source lines
435-450): if `Count == 0`, write the owning object's delete-field element
(`ewsObject.GetDeleteFieldXmlElementName()`, passed here as `deleteFieldName`) in the
Types namespace, let the property definition write its schema identity inside it, and
return true; otherwise write nothing and return false.  The returned list is the
sequence of events emitted on the writer. -/
def WriteSetUpdateToXml (deleteFieldName : String) (pd : String) (s : St) :
    List XmlOut × Bool :=
  if s.items.length = 0 then
    ([XmlOut.start XmlNs.types deleteFieldName, XmlOut.propertyDef pd, XmlOut.endElem],
      true)
  else
    ([], false)

/-- `_getItem(index)` (source lines 69-74): bounds check `index < 0 || index >= Count`
throwing `ArgumentOutOfRangeException`, then `this.items[index]`.  The index is a
JavaScript number, so it is modelled as an `Int`. -/
def _getItem (index : Int) (s : St) : Except Err Nat :=
  if index < 0 ∨ (s.items.length : Int) ≤ index then Except.error Err.indexOutOfRange
  else Except.ok (s.items.getD index.toNat 0)

/-- `InternalRemoveAt(index)` (source lines 273-280).  The bounds check
`index >= 0 && index < this.Count` is `EwsLogging.Assert`, a collaborator outside the
file; Modelled from the spec: "RemoveAt(index) — bounds-checked (`0 ≤ index < count`,
else fails with an *out-of-range* error)" (spec section 4.1), so a false condition
fails the call before anything is mutated.  In range, it delegates to
`InternalRemove(this.items[index])`. -/
def InternalRemoveAt (index : Int) (s : St) : St × Option Err :=
  if 0 ≤ index ∧ index < (s.items.length : Int) then
    ((InternalRemove (s.items.getD index.toNat 0) s).1, none)
  else
    (s, some Err.indexOutOfRange)

/-- The per-subclass configuration and runtime type information the source reaches
through abstract methods and JavaScript dynamic typing: `CreateComplexProperty`
(abstract, resolves a type-hint string to a new element instance or null),
`CreateDefaultComplexProperty` (abstract, the declared default element type, or null
when the subclass has none), and the `instanceof` test
`actual instanceof expected.constructor` (source line 388), abstracted as a relation
on element references. -/
structure Env where
  createComplexProperty : String → Option Nat
  createDefaultComplexProperty : Option Nat
  instanceOf : Nat → Nat → Bool

/-- The type-resolution step shared by both ingestion loops (source lines 158-163 and
379-384): use the payload's embedded type hint with the subclass factory when present,
else the default factory. -/
def resolveExpected (env : Env) (p : Payload) : Option Nat :=
  match p.typeName with
  | some n => env.createComplexProperty n
  | none => env.createDefaultComplexProperty

/-- Modelled from the spec: the element contract "load state from payload" (spec
section 6); each element's `LoadFromXmlJsObject` is abstract and outside the file.
Loading overwrites the element's own content with the payload and touches nothing of
the collection. -/
def loadElem (x : Nat) (p : Payload) (s : St) : St :=
  { s with elemState := setAssoc s.elemState x p }

/-- The per-element loop of `CreateFromXmlJsObjectCollection` (source lines 149-171),
taking the already-normalized payload list.  The shape-normalization prologue (lines
125-147) only builds that local list from the raw payload via external helpers and
never touches collection state, so the embedding takes the normalized list as the
argument.  Null entries are skipped; a resolved element loads its state and is added
with `loading = true`; an unresolved type (`complexProperty == null`) is skipped. -/
def CreateFromXmlJsObjectCollection (env : Env) :
    List (Option Payload) → St → St
  | [], s => s
  | none :: rest, s => CreateFromXmlJsObjectCollection env rest s
  | some p :: rest, s =>
    match resolveExpected env p with
    | none => CreateFromXmlJsObjectCollection env rest s
    | some cp =>
      CreateFromXmlJsObjectCollection env rest (InternalAdd cp true (loadElem cp p s))

/-- The positional loop of `UpdateFromXmlJsObjectCollection` (source lines 372-396):
for each entry, a null entry throws the bare local exception; otherwise resolve the
expected type, fetch the element at the running index via `_getItem(index++)`, throw
the type-incompatibility exception when the expected type is null or the `instanceof`
test fails, and otherwise load the existing element's state in place and continue. -/
def updLoop (env : Env) : List (Option Payload) → Nat → St → St × Option Err
  | [], _, s => (s, none)
  | none :: _, _, s => (s, some Err.nullEntryInUpdate)
  | some p :: rest, i, s =>
    let expected := resolveExpected env p
    match _getItem (Int.ofNat i) s with
    | Except.error e => (s, some e)
    | Except.ok actual =>
      match expected with
      | none => (s, some Err.typeIncompatible)
      | some exp =>
        if env.instanceOf actual exp then
          updLoop env rest (i + 1) (loadElem actual p s)
        else
          (s, some Err.typeIncompatible)

/-- `UpdateFromXmlJsObjectCollection` (source lines 343-397), taking the
already-normalized payload list (the normalization prologue, lines 344-366, builds the
local list without touching collection state).  If the collection's `Count` differs
from the payload list's length, throw the size-mismatch exception (lines 368-370)
before touching anything; otherwise run the positional update loop. -/
def UpdateFromXmlJsObjectCollection (env : Env) (collection : List (Option Payload))
    (s : St) : St × Option Err :=
  if s.items.length ≠ collection.length then (s, some Err.sizeMismatch)
  else updLoop env collection 0 s

theorem internalRemove_of_not_mem {s : St} {x : Nat} (h : x ∉ s.items) :
    InternalRemove x s = (s, false) := by
  simp [InternalRemove, removeEntry_snd_of_not_mem h]

theorem internalRemove_of_mem {s : St} {x : Nat} (h : x ∈ s.items) :
    InternalRemove x s =
      ({ items := (removeEntry s.items x).1,
         addedItems :=
           if x ∈ s.addedItems then (removeEntry s.addedItems x).1 else s.addedItems,
         modifiedItems := (removeEntry s.modifiedItems x).1,
         removedItems :=
           if x ∈ s.addedItems then s.removedItems else s.removedItems ++ [x],
         onChange :=
           setAssoc s.onChange x
             (removeEntry (onChangeOf s x) HandlerRef.itemChangedMethod).1,
         elemState := s.elemState,
         changedCount := s.changedCount + 1 }, true) := by
  have h2 : (removeEntry s.items x).2 = true := (removeEntry_snd_iff _ _).mpr h
  by_cases ha : x ∈ s.addedItems <;>
    simp [InternalRemove, removeOnChange, onChangeOf, h2, ha]

theorem internalAdd_of_mem {s : St} {x : Nat} (loading : Bool) (h : x ∈ s.items) :
    InternalAdd x loading s = s := by
  simp [InternalAdd, h]

theorem internalAdd_loading_changeSets (x : Nat) (s : St) :
    (InternalAdd x true s).addedItems = s.addedItems ∧
    (InternalAdd x true s).modifiedItems = s.modifiedItems ∧
    (InternalAdd x true s).removedItems = s.removedItems := by
  by_cases h : x ∈ s.items <;> simp [InternalAdd, pushOnChange, h]

theorem internalRemoveAt_zero {s : St} {a : Nat} {t : List Nat}
    (hi : s.items = a :: t) :
    InternalRemoveAt 0 s = ((InternalRemove a s).1, none) := by
  have hlen : (0 : Int) < (s.items.length : Int) := by
    rw [hi]; simp
  simp [InternalRemoveAt, hlen, hi]

theorem internalRemove_head_items {s : St} {a : Nat} {t : List Nat}
    (hi : s.items = a :: t) :
    ((InternalRemove a s).1).items = t := by
  have hm : a ∈ s.items := by rw [hi]; exact List.mem_cons_self a t
  rw [internalRemove_of_mem hm]
  simp [hi, removeEntry_cons_self]

theorem internalRemoveAt_zero_items_length {s : St} (h : 0 < s.items.length) :
    ((InternalRemoveAt 0 s).1).items.length < s.items.length := by
  obtain ⟨a, t, hi⟩ := List.exists_cons_of_ne_nil (List.length_pos.mp h)
  rw [internalRemoveAt_zero hi]
  rw [internalRemove_head_items hi, hi]
  simp

/-- `InternalClear()` (source lines 231-235): `while (this.Count > 0)
this.InternalRemoveAt(0)`.  Each in-range `InternalRemoveAt(0)` removes exactly the
first element, so the loop terminates with the sequence empty. -/
def InternalClear (s : St) : St :=
  if _hpos : 0 < s.items.length then InternalClear (InternalRemoveAt 0 s).1
  else s
termination_by s.items.length
decreasing_by
  exact internalRemoveAt_zero_items_length _hpos

/-- Written from the spec's words for comparison with `InternalClear` (claim about
"N successive Remove calls on the then-first element"): perform `n` calls of
`InternalRemove` on the current first element of the sequence. -/
def iterRemoveFirst : Nat → St → St
  | 0, s => s
  | n + 1, s => iterRemoveFirst n (InternalRemove (s.items.headD 0) s).1

theorem internalClear_spec_aux :
    ∀ (n : Nat) (s : St), s.items.length = n →
      InternalClear s = iterRemoveFirst n s ∧ (InternalClear s).items = [] := by
  intro n
  induction n with
  | zero =>
    intro s h
    have hnil : s.items = [] := List.length_eq_zero.mp h
    rw [InternalClear]
    simp [h, iterRemoveFirst, hnil]
  | succ n ih =>
    intro s h
    have hpos : 0 < s.items.length := by rw [h]; exact Nat.succ_pos n
    obtain ⟨a, t, hi⟩ := List.exists_cons_of_ne_nil (List.length_pos.mp hpos)
    have hstep : (InternalRemoveAt 0 s).1 = (InternalRemove a s).1 := by
      rw [internalRemoveAt_zero hi]
    have hlen1 : ((InternalRemove a s).1).items.length = n := by
      rw [internalRemove_head_items hi]
      have hlt : s.items.length = t.length + 1 := by rw [hi]; simp
      omega
    have ihs := ih _ hlen1
    constructor
    · rw [InternalClear]
      simp only [hpos, dif_pos]
      rw [hstep, ihs.1]
      show iterRemoveFirst n (InternalRemove a s).1
        = iterRemoveFirst n (InternalRemove (s.items.headD 0) s).1
      rw [hi]
      simp
    · rw [InternalClear]
      simp only [hpos, dif_pos]
      rw [hstep]
      exact ihs.2

theorem loadElem_changeSets (x : Nat) (p : Payload) (s : St) :
    (loadElem x p s).addedItems = s.addedItems ∧
    (loadElem x p s).modifiedItems = s.modifiedItems ∧
    (loadElem x p s).removedItems = s.removedItems :=
  ⟨rfl, rfl, rfl⟩

/-- Claim C1: `InternalRemove` on a non-member returns false and changes nothing; on a
member it removes the element from the sequence, and then: if the element was in
`addedItems` it purges it from `addedItems` and does not place it in `removedItems`,
otherwise it appends it to `removedItems`; in both cases it purges the element from
`modifiedItems`, emits the "changed" signal, and returns true. -/
theorem claim_C1_internalRemove (s : St) (x : Nat) :
    (x ∉ s.items → InternalRemove x s = (s, false)) ∧
    (x ∈ s.items →
      (InternalRemove x s).2 = true ∧
      ((InternalRemove x s).1).items = s.items.erase x ∧
      ((InternalRemove x s).1).modifiedItems = s.modifiedItems.erase x ∧
      ((InternalRemove x s).1).changedCount = s.changedCount + 1 ∧
      (x ∈ s.addedItems →
        ((InternalRemove x s).1).addedItems = s.addedItems.erase x ∧
        ((InternalRemove x s).1).removedItems = s.removedItems) ∧
      (x ∉ s.addedItems →
        ((InternalRemove x s).1).addedItems = s.addedItems ∧
        ((InternalRemove x s).1).removedItems = s.removedItems ++ [x])) := by
  constructor
  · intro h
    exact internalRemove_of_not_mem h
  · intro h
    rw [internalRemove_of_mem h]
    refine ⟨rfl, by simp [removeEntry_fst_eq_erase],
      by simp [removeEntry_fst_eq_erase], rfl, ?_, ?_⟩
    · intro ha
      simp [ha, removeEntry_fst_eq_erase]
    · intro ha
      simp [ha]

/-- Witness for claim C1: removal of a non-member from the empty collection fails and
changes nothing; removing the pending-added member 3 succeeds and purges it from
`addedItems`; removing the synchronized member 5 records it in `removedItems`. -/
theorem claim_C1_internalRemove_witness :
    InternalRemove 7 {} = ({}, false) ∧
    (InternalRemove 3 { items := [3], addedItems := [3] }).2 = true ∧
    ((InternalRemove 3 { items := [3], addedItems := [3] }).1).addedItems = [] ∧
    ((InternalRemove 5 { items := [5] }).1).removedItems = [5] :=
  ⟨(claim_C1_internalRemove {} 7).1 (by decide),
   ((claim_C1_internalRemove { items := [3], addedItems := [3] } 3).2 (by decide)).1,
   by
     have h := ((claim_C1_internalRemove { items := [3], addedItems := [3] } 3).2
       (by decide)).2.2.2.2.1 (by decide)
     rw [h.1]
     decide,
   by
     have h := ((claim_C1_internalRemove { items := [5] } 5).2
       (by decide)).2.2.2.2.2 (by decide)
     rw [h.2]
     decide⟩

/-- Claim C2 (exhibit of the code bug): after Add(0) then Remove(0) on an initially
empty collection, element 0's bound `ItemChanged` handler is still registered — the
removal at source line 251 searches `OnChange` for the raw method `this.ItemChanged`
while the array holds the distinct bound copy pushed at line 223 — so a subsequent
change notification from the already-removed element 0 places it in `modifiedItems`
although the sequence is empty, violating `modified ⊆ items`. -/
theorem claim_C2_stale_subscription_bug :
    onChangeOf ((InternalRemove 0 (InternalAdd 0 false {})).1) 0
        = [HandlerRef.boundItemChanged] ∧
    (elementChanged 0 ((InternalRemove 0 (InternalAdd 0 false {})).1)).items = [] ∧
    (elementChanged 0 ((InternalRemove 0 (InternalAdd 0 false {})).1)).modifiedItems
        = [0] := by
  decide

/-- Claim C3: when the normalized update payload's length differs from the current
`Count`, `UpdateFromXmlJsObjectCollection` fails with the size-mismatch error and the
whole state — sequence, element contents, and the three change-sets — is exactly as
before the call. -/
theorem claim_C3_update_size_mismatch (env : Env) (collection : List (Option Payload))
    (s : St) (h : s.items.length ≠ collection.length) :
    UpdateFromXmlJsObjectCollection env collection s = (s, some Err.sizeMismatch) := by
  simp [UpdateFromXmlJsObjectCollection, h]

/-- Witness for claim C3: a one-entry payload against the empty collection. -/
theorem claim_C3_update_size_mismatch_witness :
    UpdateFromXmlJsObjectCollection
        { createComplexProperty := fun _ => none,
          createDefaultComplexProperty := none,
          instanceOf := fun _ _ => false }
        [some {}] {}
      = ({}, some Err.sizeMismatch) :=
  claim_C3_update_size_mismatch _ _ _ (by decide)

/-- Claim C4: adding an element that is already a member (by reference identity) is a
complete no-op — the whole state, hence the sequence, all three change-sets and the
count of emitted "changed" signals, is unchanged. -/
theorem claim_C4_add_member_noop (s : St) (x : Nat) (loading : Bool)
    (h : x ∈ s.items) : InternalAdd x loading s = s :=
  internalAdd_of_mem loading h

/-- Witness for claim C4: re-adding the member 5. -/
theorem claim_C4_add_member_noop_witness :
    InternalAdd 5 false { items := [5] } = ({ items := [5] } : St) :=
  claim_C4_add_member_noop { items := [5] } 5 false (by decide)

/-- Claim C5: `ShouldWriteToRequest` is false exactly when `Count = 0`;
`WriteSetUpdateToXml` reports handled (true) exactly when `Count = 0`, in which case
it writes exactly the owning object's delete-field element containing the property
definition's schema identity. -/
theorem claim_C5_empty_serialization (s : St) (deleteFieldName pd : String) :
    (ShouldWriteToRequest s = false ↔ s.items.length = 0) ∧
    ((WriteSetUpdateToXml deleteFieldName pd s).2 = true ↔ s.items.length = 0) ∧
    (s.items.length = 0 →
      (WriteSetUpdateToXml deleteFieldName pd s).1 =
        [XmlOut.start XmlNs.types deleteFieldName, XmlOut.propertyDef pd,
          XmlOut.endElem]) := by
  refine ⟨?_, ?_, ?_⟩
  · simp [ShouldWriteToRequest]
  · by_cases h : s.items.length = 0 <;> simp [WriteSetUpdateToXml, h]
  · intro h
    simp [WriteSetUpdateToXml, h]

/-- Witness for claim C5: the empty collection writes the delete-field marker and
reports handled. -/
theorem claim_C5_empty_serialization_witness :
    ShouldWriteToRequest {} = false ∧
    (WriteSetUpdateToXml "DeleteItemField" "FieldURI" {}).2 = true ∧
    (WriteSetUpdateToXml "DeleteItemField" "FieldURI" {}).1 =
      [XmlOut.start XmlNs.types "DeleteItemField", XmlOut.propertyDef "FieldURI",
        XmlOut.endElem] :=
  ⟨(claim_C5_empty_serialization {} "DeleteItemField" "FieldURI").1.mpr rfl,
   (claim_C5_empty_serialization {} "DeleteItemField" "FieldURI").2.1.mpr rfl,
   (claim_C5_empty_serialization {} "DeleteItemField" "FieldURI").2.2 rfl⟩

/-- Claim C6: `InternalRemoveAt` on an index outside `[0, Count)` fails with the
index-out-of-range error leaving the whole state unchanged; on an index inside the
range it delegates to `InternalRemove` on the element at that position (which, being a
member, succeeds), so its effects are exactly those of Remove on that element. -/
theorem claim_C6_removeAt (s : St) (index : Int) :
    (¬ (0 ≤ index ∧ index < (s.items.length : Int)) →
      InternalRemoveAt index s = (s, some Err.indexOutOfRange)) ∧
    ((0 ≤ index ∧ index < (s.items.length : Int)) →
      InternalRemoveAt index s
          = ((InternalRemove (s.items.getD index.toNat 0) s).1, none) ∧
      (InternalRemove (s.items.getD index.toNat 0) s).2 = true) := by
  constructor
  · intro h
    simp [InternalRemoveAt, h]
  · intro h
    refine ⟨by simp [InternalRemoveAt, h], ?_⟩
    have hlt : index.toNat < s.items.length := by omega
    have hmem : s.items.getD index.toNat 0 ∈ s.items := by
      rw [List.getD_eq_getElem s.items 0 hlt]
      exact List.getElem_mem hlt
    rw [internalRemove_of_mem hmem]

/-- Witness for claim C6: index 5 on a one-element collection fails and changes
nothing; index 0 delegates to `InternalRemove` on the element at position 0. -/
theorem claim_C6_removeAt_witness :
    InternalRemoveAt 5 { items := [4] } = (({ items := [4] } : St), some Err.indexOutOfRange) ∧
    InternalRemoveAt 0 { items := [4] }
        = ((InternalRemove 4 ({ items := [4] } : St)).1, none) :=
  ⟨(claim_C6_removeAt { items := [4] } 5).1 (by decide),
   ((claim_C6_removeAt { items := [4] } 0).2 (by decide)).1⟩

/-- Claim C7: ingestion via `CreateFromXmlJsObjectCollection` adds every instantiated
element with the loading flag, so the three change-sets `addedItems`, `modifiedItems`,
`removedItems` are exactly the same after ingestion as before it, for every
environment, payload list and starting state. -/
theorem claim_C7_create_preserves_changesets (env : Env)
    (coll : List (Option Payload)) (s : St) :
    (CreateFromXmlJsObjectCollection env coll s).addedItems = s.addedItems ∧
    (CreateFromXmlJsObjectCollection env coll s).modifiedItems = s.modifiedItems ∧
    (CreateFromXmlJsObjectCollection env coll s).removedItems = s.removedItems := by
  induction coll generalizing s with
  | nil => exact ⟨rfl, rfl, rfl⟩
  | cons po rest ih =>
    cases po with
    | none => exact ih s
    | some p =>
      cases hcp : resolveExpected env p with
      | none =>
        simp only [CreateFromXmlJsObjectCollection, hcp]
        exact ih s
      | some cp =>
        simp only [CreateFromXmlJsObjectCollection, hcp]
        have hrec := ih (InternalAdd cp true (loadElem cp p s))
        have hstep := internalAdd_loading_changeSets cp (loadElem cp p s)
        have hload := loadElem_changeSets cp p s
        exact ⟨by rw [hrec.1, hstep.1, hload.1],
          by rw [hrec.2.1, hstep.2.1, hload.2.1],
          by rw [hrec.2.2, hstep.2.2, hload.2.2]⟩

/-- Claim C8: `InternalClear` produces exactly the state reached by `Count` successive
`InternalRemove` calls on the then-first element, and leaves the sequence empty — so
the resulting change-sets equal those of the individual removals, not a bulk reset. -/
theorem claim_C8_clear_equals_iterated_remove (s : St) :
    InternalClear s = iterRemoveFirst s.items.length s ∧
    (InternalClear s).items = [] :=
  internalClear_spec_aux s.items.length s rfl

/-- Claim C9: `UpdateFromXmlJsObjectCollection` applies positional updates strictly in
order without rollback: on a two-element collection, a payload whose first entry is
valid and whose second entry is null raises the null-entry error, yet the element at
position 0 has already loaded its new state (`value := 7`) from the payload. -/
theorem claim_C9_update_no_rollback :
    (UpdateFromXmlJsObjectCollection
        { createComplexProperty := fun _ => none,
          createDefaultComplexProperty := some 99,
          instanceOf := fun _ _ => true }
        [some { value := 7 }, none]
        { items := [10, 11] }).2 = some Err.nullEntryInUpdate ∧
    ((UpdateFromXmlJsObjectCollection
        { createComplexProperty := fun _ => none,
          createDefaultComplexProperty := some 99,
          instanceOf := fun _ _ => true }
        [some { value := 7 }, none]
        { items := [10, 11] }).1).elemState = [(10, { value := 7 })] ∧
    ((UpdateFromXmlJsObjectCollection
        { createComplexProperty := fun _ => none,
          createDefaultComplexProperty := some 99,
          instanceOf := fun _ _ => true }
        [some { value := 7 }, none]
        { items := [10, 11] }).1).items = [10, 11] := by
  decide

/-- Claim C10: `ClearChangeLog` and `RemoveFromChangeLog` leave the sequence (and the
elements' subscriptions) unchanged and emit no "changed" signal — the emission counter
is untouched. -/
theorem claim_C10_changelog_frame (s : St) (x : Nat) :
    (ClearChangeLog s).items = s.items ∧
    (ClearChangeLog s).changedCount = s.changedCount ∧
    (ClearChangeLog s).onChange = s.onChange ∧
    (RemoveFromChangeLog x s).items = s.items ∧
    (RemoveFromChangeLog x s).changedCount = s.changedCount ∧
    (RemoveFromChangeLog x s).onChange = s.onChange :=
  ⟨rfl, rfl, rfl, rfl, rfl, rfl⟩
